import Mathlib

/-!
Shallow embedding of the AstroKites weather-data core
(`src/AstroKites/src/pages/forecast.jsx`): the series aggregator
(`processApiData`, lines 60-169), the statistics summarizer
(`dataStatistics` / `WeatherInsights`), the extreme-event detector
(`recentExtremeEvents`), the per-month extreme counter inside
`getHistoricalData`, and the `LineChart` down-sampler.

JavaScript values that a weather field may hold are `undefined` (the
parameter never appeared in `available`), `null` (explicitly set for a
missing sample), or a number.  These three cases behave differently
under JS comparisons (`null > c` coerces `null` to `0`; comparisons
with `undefined` are false), so the embedding keeps all three.
Floats are modelled as rationals (`ℚ`); every arithmetic step in the
source is addition/division/multiplication of values well inside the
exactly-representable double range for the inputs considered.
-/

namespace AstroKites

/-- A JavaScript value held by a weather field of a daily record:
`undefined`, `null`, or a finite number. -/
inductive JVal where
  | undef : JVal
  | null : JVal
  | num : ℚ → JVal
deriving DecidableEq, Repr

/-- The numeric content of a field, if any (`undefined`/`null` are absent). -/
def numOf : JVal → Option ℚ
  | .num q => some q
  | _ => none

/-- Embeds the JS guard `x !== undefined && x > c`: comparisons with
`undefined` are false, `null` coerces to `0` under `>`. -/
def jsDefGT (v : JVal) (c : ℚ) : Bool :=
  match v with
  | .undef => false
  | .null => decide ((0 : ℚ) > c)
  | .num q => decide (q > c)

/-- Embeds the JS guard `x !== undefined && x < c` (same coercions). -/
def jsDefLT (v : JVal) (c : ℚ) : Bool :=
  match v with
  | .undef => false
  | .null => decide ((0 : ℚ) < c)
  | .num q => decide (q < c)

/-- Embeds the JS nullish-coalescing `x ?? d`: `undefined`/`null` fall
back to the default, numbers pass through. -/
def jsNullish (v : JVal) (d : ℚ) : ℚ :=
  match v with
  | .num q => q
  | _ => d

/-- A calendar date as carried by the upstream `dates` strings
(`YYYY-MM-DD`); `year`/`month` are what JS `getFullYear()` /
`getMonth()+1` recover from it (`month` is 1-based here). -/
structure CalDate where
  year : Int
  month : Nat
  day : Nat
deriving DecidableEq, Repr

/-- One daily record as built by `processApiData` (`forecast.jsx:85-112`):
a date plus the `temp`/`precip`/`wind` fields, each `undefined`, `null`
or a number. -/
structure DailyRec where
  date : CalDate
  temp : JVal
  precip : JVal
  wind : JVal
deriving DecidableEq, Repr

/-- The grouping key `` `${date.getFullYear()}-${pad2(date.getMonth()+1)}` ``
(`forecast.jsx:118`).  The string is zero-padded to two month digits and
hence injective in the `(year, month)` pair, so the key is embedded as
that pair directly. -/
abbrev MonthKey := Int × Nat

/-- The month key of a daily record. -/
def keyOf (r : DailyRec) : MonthKey := (r.date.year, r.date.month)

/-- A running sum/count pair for one weather parameter of a month
(`tempSum`/`tempCount` etc., `forecast.jsx:126-128`). -/
structure SC where
  sum : ℚ
  count : Nat
deriving DecidableEq, Repr

/-- `{ sum: 0, count: 0 }`. -/
def SC.zero : SC := ⟨0, 0⟩

/-- One `if (v !== undefined && v !== null) { sum += v; count++ }` block
(`forecast.jsx:132-145`). -/
def addVal (v : JVal) (sc : SC) : SC :=
  match v with
  | .num q => ⟨sc.sum + q, sc.count + 1⟩
  | _ => sc

/-- The per-month accumulator object stored in `monthlyData[monthKey]`
(`forecast.jsx:122-129`); the display-only `monthName` field is omitted. -/
structure MAcc where
  t : SC
  p : SC
  w : SC
deriving DecidableEq, Repr

/-- The freshly-initialised accumulator (all sums/counts zero). -/
def MAcc.init : MAcc := ⟨SC.zero, SC.zero, SC.zero⟩

/-- Folding one day into an accumulator: the three independent
presence-guarded sum/count updates of `forecast.jsx:132-145`. -/
def bumpAcc (day : DailyRec) (a : MAcc) : MAcc :=
  ⟨addVal day.temp a.t, addVal day.precip a.p, addVal day.wind a.w⟩

/-- Folding one day into the keyed accumulator map `monthlyData`
(`forecast.jsx:116-146`): the first entry with the day's key is updated
in place, a missing key appends a fresh entry (JS object insertion
order). -/
def updateGroups : List (MonthKey × MAcc) → DailyRec → List (MonthKey × MAcc)
  | [], day => [(keyOf day, bumpAcc day MAcc.init)]
  | (k, a) :: rest, day =>
      if k = keyOf day then (k, bumpAcc day a) :: rest
      else (k, a) :: updateGroups rest day

/-- The fully-accumulated `monthlyData` map, as an insertion-ordered
association list. -/
def monthlyGroups (recs : List DailyRec) : List (MonthKey × MAcc) :=
  recs.foldl updateGroups []

/-- One element of `result.monthly` (`forecast.jsx:149-156`); display
fields (`monthName`) are omitted, the key string is kept as its
`(year, month)` pair. -/
structure MonthlyAgg where
  key : MonthKey
  meanTemp : Option ℚ
  meanPrecip : Option ℚ
  meanWind : Option ℚ
  daysWithData : Nat
deriving DecidableEq, Repr

/-- `meanX: m.xCount ? m.xSum / m.xCount : null` (`forecast.jsx:153-155`). -/
def meanOf (sc : SC) : Option ℚ :=
  if sc.count ≠ 0 then some (sc.sum / sc.count) else none

/-- Turning one accumulator entry into a `MonthlyAgg`
(`forecast.jsx:149-156`). -/
def finalize (e : MonthKey × MAcc) : MonthlyAgg :=
  { key := e.1
    meanTemp := meanOf e.2.t
    meanPrecip := meanOf e.2.p
    meanWind := meanOf e.2.w
    daysWithData := max e.2.t.count (max e.2.p.count e.2.w.count) }

/-- The sort comparator of `forecast.jsx:157-163`: years compare
numerically; for equal years `localeCompare` on the zero-padded
`YYYY-MM` strings reduces to numeric month order. -/
def keyLE (a b : MonthKey) : Prop := a.1 < b.1 ∨ (a.1 = b.1 ∧ a.2 ≤ b.2)

/-- Strict version of `keyLE`. -/
def keyLT (a b : MonthKey) : Prop := a.1 < b.1 ∨ (a.1 = b.1 ∧ a.2 < b.2)

instance : DecidableRel keyLE := fun a b => by unfold keyLE; exact inferInstance

instance : DecidableRel keyLT := fun a b => by unfold keyLT; exact inferInstance

/-- The comparator lifted to monthly aggregates. -/
def aggLE (x y : MonthlyAgg) : Prop := keyLE x.key y.key

instance : DecidableRel aggLE := fun a b => by unfold aggLE; exact inferInstance

instance : IsTotal MonthlyAgg aggLE :=
  ⟨fun a b => by unfold aggLE keyLE; omega⟩

instance : IsTrans MonthlyAgg aggLE :=
  ⟨fun a b c hab hbc => by
    unfold aggLE keyLE at *
    omega⟩

/-- The series aggregator (`processApiData`, `forecast.jsx:114-163`):
group daily records by `(year, month)`, take per-parameter means over
present values, and sort ascending by year then month.  `Array.sort`
with a total comparator is embedded as insertion sort (stable; the keys
are pairwise distinct, so any stable sort agrees). -/
def aggregate (recs : List DailyRec) : List MonthlyAgg :=
  List.insertionSort aggLE ((monthlyGroups recs).map finalize)

/-! ### Extreme-event detector (`recentExtremeEvents`, `forecast.jsx:1006-1054`) -/

/-- The four event labels emitted by `recentExtremeEvents`. -/
inductive EKind where
  | extremeHeat : EKind
  | extremeCold : EKind
  | heavyRain : EKind
  | strongWind : EKind
deriving DecidableEq, Repr

/-- One emitted extreme event.  `value` is the raw magnitude the code
formats with `toFixed(1)` plus a unit suffix; the guard in force when an
event is pushed guarantees the field is numeric. -/
structure ExtremeEvent where
  kind : EKind
  location : String
  date : CalDate
  value : ℚ
deriving DecidableEq, Repr

/-- Events one daily record contributes (`forecast.jsx:1016-1050`):
heat `else if` cold on temperature, then an independent precipitation
rule, then an independent wind rule, in push order. -/
def detectDay (loc : String) (day : DailyRec) : List ExtremeEvent :=
  (if jsDefGT day.temp 35 then
    [⟨.extremeHeat, loc, day.date, jsNullish day.temp 0⟩]
   else if jsDefLT day.temp 0 then
    [⟨.extremeCold, loc, day.date, jsNullish day.temp 0⟩]
   else [])
  ++ (if jsDefGT day.precip 25 then
    [⟨.heavyRain, loc, day.date, jsNullish day.precip 0⟩] else [])
  ++ (if jsDefGT day.wind 20 then
    [⟨.strongWind, loc, day.date, jsNullish day.wind 0⟩] else [])

/-- A numeric proxy for the JS `Date` timestamp of a calendar date:
strictly monotone in `(year, month, day)` for month `1..12`, day
`1..31`. -/
def dateNum (d : CalDate) : Int := d.year * 10000 + d.month * 100 + d.day

/-- The descending comparator `(a, b) => new Date(b.date) - new Date(a.date)`
(`forecast.jsx:1053`): `a` sorts no later than `b` when `b`'s date is
`≤` `a`'s. -/
def dateDesc (a b : ExtremeEvent) : Prop := dateNum b.date ≤ dateNum a.date

instance : DecidableRel dateDesc := fun a b => by unfold dateDesc; exact inferInstance

instance : IsTotal ExtremeEvent dateDesc :=
  ⟨fun a b => by unfold dateDesc; omega⟩

instance : IsTrans ExtremeEvent dateDesc :=
  ⟨fun a b c hab hbc => by unfold dateDesc at *; omega⟩

/-- The detector: per-record rule events, then a stable sort descending
by date (`forecast.jsx:1006-1054`). -/
def detect (recs : List DailyRec) (loc : String) : List ExtremeEvent :=
  List.insertionSort dateDesc (recs.flatMap (detectDay loc))

/-! ### Monthly extreme counter (`getHistoricalData`, `forecast.jsx:940-950`)
and range total (`dataStatistics`, `forecast.jsx:993-1000`) -/

/-- `countInc` for one day (`forecast.jsx:945-948`): one per triggered
looser-threshold condition.  Note the JS guard
`day.temp !== undefined && (day.temp > 30 || day.temp < 5)` lets a
`null` temperature trigger, since `null < 5` coerces `null` to `0`. -/
def dayExtremeCount (day : DailyRec) : Nat :=
  (if jsDefGT day.precip 10 then 1 else 0)
  + (if jsDefGT day.temp 30 || jsDefLT day.temp 5 then 1 else 0)
  + (if jsDefGT day.wind 20 then 1 else 0)

/-- One `extremeByMonth.set(key, (extremeByMonth.get(key) || 0) + countInc)`
step (`forecast.jsx:949`), on the insertion-ordered association list
modelling the JS `Map`. -/
def updateCount : List (MonthKey × Nat) → MonthKey → Nat → List (MonthKey × Nat)
  | [], k, n => [(k, n)]
  | (k', c) :: rest, k, n =>
      if k' = k then (k', c + n) :: rest
      else (k', c) :: updateCount rest k n

/-- The accumulated `extremeByMonth` map (`forecast.jsx:941-950`). -/
def extremeByMonth (recs : List DailyRec) : List (MonthKey × Nat) :=
  recs.foldl (fun m day => updateCount m (keyOf day) (dayExtremeCount day)) []

/-- The read `extremeByMonth.get(key) || 0` (`forecast.jsx:960`). -/
def getCount (m : List (MonthKey × Nat)) (k : MonthKey) : Nat :=
  (((m.find? (fun e => e.1 = k)).map (fun e => e.2)).getD 0)

/-- `totalExtreme` (`dataStatistics`, `forecast.jsx:994-1000`): the same
per-condition counts summed over the whole range. -/
def totalExtreme (recs : List DailyRec) : Nat :=
  recs.foldl (fun cnt d => cnt + dayExtremeCount d) 0

/-! ### Statistics summarizer (`dataStatistics`, `forecast.jsx:977-991`;
`WeatherInsights`, `forecast.jsx:477-490`) -/

/-- The scalar summary of one series: mean/min/max over present values,
total of present values, and how many were present. -/
structure Summary where
  mean : Option ℚ
  min : Option ℚ
  max : Option ℚ
  total : ℚ
  presentCount : Nat
deriving DecidableEq, Repr

/-- The summarizer pattern of `dataStatistics`/`WeatherInsights`: filter
to present values (`.filter(v => v !== undefined && v !== null)`), then
`reduce((a,b) => a+b, 0)` for sums, `xs.length ? sum/xs.length : absent`
for the mean, and `Math.min(...xs)` / `Math.max(...xs)` guarded by
nonemptiness for the extremes. -/
def summarize (values : List JVal) : Summary :=
  let present := values.filterMap numOf
  { mean := if present.length ≠ 0 then some (present.sum / present.length) else none
    min := match present with
      | [] => none
      | h :: t => some (t.foldl min h)
    max := match present with
      | [] => none
      | h :: t => some (t.foldl max h)
    total := present.sum
    presentCount := present.length }

/-! ### Chart series and down-sampler (`LineChart`, `forecast.jsx:172-232`;
computed chart arrays, `forecast.jsx:876-878`, `957-960`) -/

/-- The computed chart array `forecastData.daily.map(d => d.temp ?? 0)`
(`forecast.jsx:876`): absent values are coalesced to `0`. -/
def tempsSeries (daily : List DailyRec) : List ℚ :=
  daily.map (fun d => jsNullish d.temp 0)

/-- `forecast.jsx:877`. -/
def precipsSeries (daily : List DailyRec) : List ℚ :=
  daily.map (fun d => jsNullish d.precip 0)

/-- `forecast.jsx:878`. -/
def windsSeries (daily : List DailyRec) : List ℚ :=
  daily.map (fun d => jsNullish d.wind 0)

/-- `validData = data.filter(d => d !== null && d !== undefined && !isNaN(d))`
(`forecast.jsx:183`); chart inputs are numbers or `null`/`undefined`,
modelled as `Option ℚ`. -/
def validOf (data : List (Option ℚ)) : List ℚ := data.filterMap id

/-- Index of the first occurrence of the maximum present value:
`data.indexOf(Math.max(...validData))` (`forecast.jsx:189,200`).  JS
`indexOf` compares with `===`, so only a numeric cell equal to the
maximum matches; the maximum is drawn from `data`, so the search always
succeeds and the `-1` case of `indexOf` is unreachable. -/
def maxIdxOf (data : List (Option ℚ)) : Nat :=
  match validOf data with
  | [] => 0
  | h :: t => data.findIdx (fun c => c = some (t.foldl max h))

/-- Index of the first occurrence of the minimum present value
(`forecast.jsx:190,201`). -/
def minIdxOf (data : List (Option ℚ)) : Nat :=
  match validOf data with
  | [] => 0
  | h :: t => data.findIdx (fun c => c = some (t.foldl min h))

/-- Pouring a list element-wise into a JS `Set` and iterating it
(`forecast.jsx:202`): each element is kept at its first occurrence and
skipped when already seen. -/
def dedupFirstAux (seen : List Nat) : List Nat → List Nat
  | [] => []
  | a :: rest =>
      if a ∈ seen then dedupFirstAux seen rest
      else a :: dedupFirstAux (a :: seen) rest

/-- First-occurrence deduplication (a JS `Set` built from a list). -/
def dedupFirst (l : List Nat) : List Nat := dedupFirstAux [] l

/-- The sampled-plus-important index selection of `forecast.jsx:197-216`:
`importantIndices = new Set([0, len-1, maxIdx, minIdx])`,
`sampleRate = max(1, floor(len / 50))`, the stride loop collects every
`sampleRate`-th index not already important, and the union is sorted
ascending (`.sort((a, b) => a - b)`). -/
def downsampleIndices (data : List (Option ℚ)) : List Nat :=
  let len := data.length
  let important := dedupFirst [0, len - 1, maxIdxOf data, minIdxOf data]
  let sampleRate := max 1 (len / 50)
  let sampled := (List.range len).filter
    (fun i => i % sampleRate = 0 ∧ i ∉ important)
  List.insertionSort (· ≤ ·) (important ++ sampled)

/-- The retained data-index list of `LineChart` in compact mode
(`forecast.jsx:175-217`): `none` for the "No data" / "No valid data"
early returns, otherwise all indices unless
`compact && data.length > 100` triggers down-sampling. -/
def lineChartIndices (data : List (Option ℚ)) (compact : Bool) : Option (List Nat) :=
  if data.length = 0 then none
  else if (validOf data).length = 0 then none
  else some
    (if compact ∧ 100 < data.length then downsampleIndices data
     else List.range data.length)

/-- The horizontal position of the point at down-sampled position `i`
(`forecast.jsx:225-227`): `x = (i / (totalPoints || 1)) * (width - 24) + 12`
with `totalPoints` the retained count minus one (`0` is falsy and falls
back to `1`). -/
def chartX (i : Nat) (totalPoints : Nat) (width : ℚ) : ℚ :=
  ((i : ℚ) / (if totalPoints = 0 then 1 else (totalPoints : ℚ))) * (width - 24) + 12

/-! ### Upstream payload decoding (`processApiData`, `forecast.jsx:60-169`) -/

/-- One `{ dates, values }` entry of the decoded payload (§6 shape). -/
structure ParamSeries where
  dates : List CalDate
  values : List ℚ
deriving DecidableEq, Repr

/-- The decoded upstream payload: the keyed `data` object (association
list) plus the `available` PARAM_CODE list. -/
structure Payload where
  data : List (String × ParamSeries)
  available : List String
deriving DecidableEq, Repr

/-- `data[param]` lookup. -/
def lookupParam (d : List (String × ParamSeries)) (p : String) : Option ParamSeries :=
  ((d.find? (fun e => e.1 = p)).map (fun e => e.2))

/-- One iteration of the `available.forEach(param => ...)` body
(`forecast.jsx:89-109`): when `data[param].values[index]` exists the
recognized codes set their field (`WS2M` converts m/s to km/h by
`* 3.6`), otherwise the recognized codes set an explicit `null`;
unrecognized codes (including `PRECTOTCORR`) touch nothing. -/
def applyParam (data : List (String × ParamSeries)) (index : Nat)
    (rec : DailyRec) (param : String) : DailyRec :=
  match lookupParam data param with
  | some ps =>
    match ps.values.get? index with
    | some v =>
        if param = "WS2M" then { rec with wind := .num (v * (36 / 10)) }
        else if param = "T2M" then { rec with temp := .num v }
        else if param = "PRECTOT" then { rec with precip := .num v }
        else rec
    | none =>
        if param = "WS2M" then { rec with wind := .null }
        else if param = "T2M" then { rec with temp := .null }
        else if param = "PRECTOT" then { rec with precip := .null }
        else rec
  | none =>
      if param = "WS2M" then { rec with wind := .null }
      else if param = "T2M" then { rec with temp := .null }
      else if param = "PRECTOT" then { rec with precip := .null }
      else rec

/-- The daily record built for `dates[index]` (`forecast.jsx:85-112`):
start from a bare `{ date }` object (all weather fields `undefined`) and
fold the `available` codes over it. -/
def mkDailyRec (pl : Payload) (date : CalDate) (index : Nat) : DailyRec :=
  pl.available.foldl (applyParam pl.data index)
    { date := date, temp := .undef, precip := .undef, wind := .undef }

/-- The result object of `processApiData` (`forecast.jsx:63-77`). -/
structure ProcResult where
  daily : List DailyRec
  monthly : List MonthlyAgg
  hasData : Bool
  errorMessage : Option String
deriving DecidableEq, Repr

/-- `processApiData` (`forecast.jsx:60-169`) on a decoded payload: the
`T2M` entry with a non-empty `dates` array gates everything; without it
the result is the empty no-data object with an error message. -/
def processApiData (pl : Payload) : ProcResult :=
  match lookupParam pl.data "T2M" with
  | some t2m =>
    if t2m.dates.length ≠ 0 then
      let daily := t2m.dates.mapIdx (fun i date => mkDailyRec pl date i)
      { daily := daily
        monthly := aggregate daily
        hasData := true
        errorMessage := none }
    else
      { daily := [], monthly := [], hasData := false
        errorMessage := some "No temperature data available for the selected date range." }
  | none =>
      { daily := [], monthly := [], hasData := false
        errorMessage := some "No temperature data available for the selected date range." }

/-! ### Spec-side comparison definitions and concrete inputs -/

/-- The spec's mean of a sequence of optional values (§4.1): sum of
present values over their count, absent when none are present.  Written
from the spec's words, for comparison with the code's means. -/
def specMean (vs : List JVal) : Option ℚ :=
  let pres := vs.filterMap numOf
  if pres.length = 0 then none else some (pres.sum / pres.length)

/-- The spec's retained index set (§4.4), written from the spec's words
for comparison with `downsampleIndices`: the union of index `0`, index
`length-1`, the global-max index and the global-min index with every
`N`th index (`N = max(1, floor(length/50))`), deduplicated and in
ascending index order. -/
def specRetainedSet (data : List (Option ℚ)) : List Nat :=
  let len := data.length
  let stride := max 1 (len / 50)
  List.insertionSort (· ≤ ·)
    (dedupFirst ([0, len - 1, maxIdxOf data, minIdxOf data]
      ++ (List.range len).filter (fun i => i % stride = 0)))

/-- The two-day January-2024 input of the spec's §8 end-to-end scenario. -/
def demoJan : List DailyRec :=
  [⟨⟨2024, 1, 1⟩, .num 36, .num 0, .num 5⟩,
   ⟨⟨2024, 1, 15⟩, .num (-2), .num 30, .num 25⟩]

/-- A record whose every weather field is an explicit `null`. -/
def nullRec : DailyRec := ⟨⟨2024, 2, 1⟩, .null, .null, .null⟩

/-- A one-day input whose weather fields are all absent. -/
def demoNull : List DailyRec := [⟨⟨2024, 1, 1⟩, .null, .null, .undef⟩]

/-- A 100-element all-present series (constant value `1`). -/
def data100 : List (Option ℚ) := (List.range 100).map (fun _ => some 1)

/-- A payload advertising `T2M` and `PRECTOTCORR`, both with one date
and one value. -/
def plCorr : Payload :=
  ⟨[("T2M", ⟨[⟨2024, 1, 1⟩], [20]⟩), ("PRECTOTCORR", ⟨[⟨2024, 1, 1⟩], [7]⟩)],
   ["T2M", "PRECTOTCORR"]⟩

/-- A payload carrying only wind data (no `T2M` entry at all). -/
def plWindOnly : Payload := ⟨[("WS2M", ⟨[⟨2024, 1, 1⟩], [10]⟩)], ["WS2M"]⟩

/-! ## Helper lemmas -/

theorem getCount_nil (k : MonthKey) : getCount [] k = 0 := rfl

theorem getCount_cons (k0 : MonthKey) (c0 : Nat) (t : List (MonthKey × Nat)) (k' : MonthKey) :
    getCount ((k0, c0) :: t) k' = if k0 = k' then c0 else getCount t k' := by
  by_cases h : k0 = k' <;> simp [getCount, List.find?_cons, h]

theorem getCount_updateCount (m : List (MonthKey × Nat)) (k k' : MonthKey) (n : Nat) :
    getCount (updateCount m k n) k' =
      if k = k' then getCount m k' + n else getCount m k' := by
  induction m with
  | nil =>
    by_cases h : k = k' <;>
      simp [updateCount, getCount_cons, getCount_nil, h]
  | cons e rest ih =>
    obtain ⟨ke, ce⟩ := e
    by_cases he : ke = k
    · subst he
      simp only [updateCount, if_pos rfl]
      by_cases h2 : ke = k' <;> simp [getCount_cons, h2]
    · simp only [updateCount, if_neg he]
      by_cases h2 : ke = k'
      · have hkk : ¬ k = k' := fun h => he (h2.trans h.symm)
        simp [getCount_cons, h2, hkk]
      · simp [getCount_cons, h2, ih]

theorem getCount_foldl (recs : List DailyRec) (m : List (MonthKey × Nat)) (k : MonthKey) :
    getCount (recs.foldl (fun m day => updateCount m (keyOf day) (dayExtremeCount day)) m) k =
      getCount m k + ((recs.filter (fun r => keyOf r = k)).map dayExtremeCount).sum := by
  induction recs generalizing m with
  | nil => simp
  | cons r rest ih =>
    simp only [List.foldl_cons, ih]
    rw [getCount_updateCount]
    by_cases h : keyOf r = k
    · simp [h, List.filter_cons, Nat.add_assoc, Nat.add_comm (dayExtremeCount r)]
    · simp [h, List.filter_cons]

/-- `monthlyData[k]` lookup on the association-list embedding. -/
def lookupAcc (gs : List (MonthKey × MAcc)) (k : MonthKey) : Option MAcc :=
  ((gs.find? (fun e => e.1 = k)).map (fun e => e.2))

theorem lookupAcc_nil (k : MonthKey) : lookupAcc [] k = none := rfl

theorem lookupAcc_cons (k0 : MonthKey) (a0 : MAcc) (t : List (MonthKey × MAcc))
    (k : MonthKey) :
    lookupAcc ((k0, a0) :: t) k = if k0 = k then some a0 else lookupAcc t k := by
  by_cases h : k0 = k <;> simp [lookupAcc, List.find?_cons, h]

theorem lookupAcc_updateGroups (gs : List (MonthKey × MAcc)) (day : DailyRec)
    (k : MonthKey) :
    lookupAcc (updateGroups gs day) k =
      if keyOf day = k then some (bumpAcc day ((lookupAcc gs k).getD MAcc.init))
      else lookupAcc gs k := by
  induction gs with
  | nil =>
    by_cases h : keyOf day = k <;>
      simp [updateGroups, lookupAcc_cons, lookupAcc_nil, h]
  | cons e rest ih =>
    obtain ⟨ke, ae⟩ := e
    by_cases he : ke = keyOf day
    · simp only [updateGroups, if_pos he]
      by_cases h2 : ke = k
      · subst h2
        simp [lookupAcc_cons, he.symm]
      · have hdk : ¬ keyOf day = k := fun h => h2 (he.trans h)
        simp [lookupAcc_cons, h2, hdk]
    · simp only [updateGroups, if_neg he]
      by_cases h2 : ke = k
      · subst h2
        have hdk : ¬ keyOf day = ke := fun h => he h.symm
        simp [lookupAcc_cons, hdk]
      · simp [lookupAcc_cons, h2, ih]

theorem lookupAcc_foldl (recs : List DailyRec) (gs : List (MonthKey × MAcc))
    (k : MonthKey) :
    lookupAcc (recs.foldl updateGroups gs) k =
      if (recs.filter (fun r => keyOf r = k)).isEmpty then lookupAcc gs k
      else some ((recs.filter (fun r => keyOf r = k)).foldl (fun a r => bumpAcc r a)
        ((lookupAcc gs k).getD MAcc.init)) := by
  induction recs generalizing gs with
  | nil => simp
  | cons r rest ih =>
    simp only [List.foldl_cons]
    rw [ih, lookupAcc_updateGroups]
    by_cases h : keyOf r = k
    · simp only [h, if_pos rfl, List.filter_cons, decide_eq_true_eq, if_pos h]
      by_cases h2 : (rest.filter (fun r => keyOf r = k)).isEmpty = true
      · rw [List.isEmpty_iff] at h2
        simp [h2, h, List.foldl_cons]
      · simp [h2, h, List.foldl_cons]
    · have h' : ¬ (decide (keyOf r = k) = true) := by simp [h]
      simp [List.filter_cons, h, h']

/-- Keys of the accumulator map after one update step. -/
theorem keys_updateGroups (gs : List (MonthKey × MAcc)) (day : DailyRec) :
    (updateGroups gs day).map Prod.fst =
      if keyOf day ∈ gs.map Prod.fst then gs.map Prod.fst
      else gs.map Prod.fst ++ [keyOf day] := by
  induction gs with
  | nil => simp [updateGroups]
  | cons e rest ih =>
    obtain ⟨ke, ae⟩ := e
    by_cases he : ke = keyOf day
    · subst he
      simp [updateGroups]
    · have : ¬ keyOf day = ke := fun h => he h.symm
      simp only [updateGroups, if_neg he, List.map_cons, List.mem_cons, this,
        false_or, ih]
      by_cases h2 : keyOf day ∈ rest.map Prod.fst <;> simp [h2]

theorem mem_keys_foldl (recs : List DailyRec) (gs : List (MonthKey × MAcc))
    (k : MonthKey) :
    k ∈ (recs.foldl updateGroups gs).map Prod.fst ↔
      k ∈ gs.map Prod.fst ∨ k ∈ recs.map keyOf := by
  induction recs generalizing gs with
  | nil => simp
  | cons r rest ih =>
    simp only [List.foldl_cons, ih, keys_updateGroups]
    by_cases h : keyOf r ∈ gs.map Prod.fst
    · simp only [if_pos h, List.map_cons, List.mem_cons]
      constructor
      · rintro (hg | hr)
        · exact Or.inl hg
        · exact Or.inr (Or.inr hr)
      · rintro (hg | heq | hr)
        · exact Or.inl hg
        · exact Or.inl (heq ▸ h)
        · exact Or.inr hr
    · simp only [if_neg h, List.map_cons, List.mem_cons, List.mem_append,
        List.mem_singleton]
      tauto

theorem keys_nodup_foldl (recs : List DailyRec) (gs : List (MonthKey × MAcc))
    (h : (gs.map Prod.fst).Nodup) :
    ((recs.foldl updateGroups gs).map Prod.fst).Nodup := by
  induction recs generalizing gs with
  | nil => exact h
  | cons r rest ih =>
    simp only [List.foldl_cons]
    refine ih _ ?_
    rw [keys_updateGroups]
    by_cases hm : keyOf r ∈ gs.map Prod.fst
    · simpa [hm] using h
    · simp only [if_neg hm]
      exact List.Nodup.append h (List.nodup_singleton _)
        (by simpa [List.disjoint_singleton] using hm)

/-- With pairwise-distinct keys, membership in the accumulator map is
exactly a successful lookup. -/
theorem lookupAcc_of_mem (gs : List (MonthKey × MAcc))
    (h : (gs.map Prod.fst).Nodup) (e : MonthKey × MAcc) (he : e ∈ gs) :
    lookupAcc gs e.1 = some e.2 := by
  induction gs with
  | nil => cases he
  | cons g rest ih =>
    obtain ⟨kg, ag⟩ := g
    rcases List.mem_cons.mp he with rfl | htail
    · simp [lookupAcc_cons]
    · have hk : kg ≠ e.1 := by
        intro hkk
        have : e.1 ∈ rest.map Prod.fst := List.mem_map_of_mem Prod.fst htail
        rw [← hkk] at this
        exact (List.nodup_cons.mp h).1 this
      rw [lookupAcc_cons, if_neg hk]
      exact ih (List.nodup_cons.mp h).2 htail

/-- Projecting the accumulator fold to one parameter's sum/count pair. -/
theorem foldl_bump_t (l : List DailyRec) (a : MAcc) :
    (l.foldl (fun x r => bumpAcc r x) a).t =
      (l.map (fun r => r.temp)).foldl (fun sc v => addVal v sc) a.t := by
  induction l generalizing a with
  | nil => rfl
  | cons r rest ih =>
    simp only [List.foldl_cons, List.map_cons]
    rw [ih]
    rfl

theorem foldl_bump_p (l : List DailyRec) (a : MAcc) :
    (l.foldl (fun x r => bumpAcc r x) a).p =
      (l.map (fun r => r.precip)).foldl (fun sc v => addVal v sc) a.p := by
  induction l generalizing a with
  | nil => rfl
  | cons r rest ih =>
    simp only [List.foldl_cons, List.map_cons]
    rw [ih]
    rfl

theorem foldl_bump_w (l : List DailyRec) (a : MAcc) :
    (l.foldl (fun x r => bumpAcc r x) a).w =
      (l.map (fun r => r.wind)).foldl (fun sc v => addVal v sc) a.w := by
  induction l generalizing a with
  | nil => rfl
  | cons r rest ih =>
    simp only [List.foldl_cons, List.map_cons]
    rw [ih]
    rfl

/-- The `addVal` fold is the sum and count of the present values. -/
theorem foldl_addVal (vs : List JVal) (sc : SC) :
    vs.foldl (fun sc v => addVal v sc) sc =
      ⟨sc.sum + (vs.filterMap numOf).sum, sc.count + (vs.filterMap numOf).length⟩ := by
  induction vs generalizing sc with
  | nil => simp
  | cons v rest ih =>
    cases v with
    | undef => simpa [addVal, numOf] using ih sc
    | null => simpa [addVal, numOf] using ih sc
    | num q =>
      rw [List.foldl_cons, ih]
      simp only [addVal, List.filterMap_cons, numOf, List.sum_cons,
        List.length_cons, SC.mk.injEq]
      exact ⟨by ring, by omega⟩

/-- The accumulator behind any member of `aggregate`'s output is the
fold of the records sharing its key. -/
theorem mem_aggregate_acc (recs : List DailyRec) (agg : MonthlyAgg)
    (h : agg ∈ aggregate recs) :
    ∃ e : MonthKey × MAcc, agg = finalize e ∧
      ¬ (recs.filter (fun r => keyOf r = e.1)).isEmpty = true ∧
      e.2 = (recs.filter (fun r => keyOf r = e.1)).foldl
        (fun a r => bumpAcc r a) MAcc.init := by
  rw [aggregate, List.mem_insertionSort] at h
  obtain ⟨e, he, rfl⟩ := List.mem_map.mp h
  have hl : lookupAcc (monthlyGroups recs) e.1 = some e.2 :=
    lookupAcc_of_mem _ (keys_nodup_foldl recs [] (by simp)) e he
  rw [monthlyGroups, lookupAcc_foldl] at hl
  by_cases hf : ((recs.filter (fun r => keyOf r = e.1)).isEmpty = true)
  · rw [if_pos hf, lookupAcc_nil] at hl
    cases hl
  · rw [if_neg hf, lookupAcc_nil, Option.getD_none] at hl
    exact ⟨e, rfl, hf, (Option.some_inj.mp hl).symm⟩

/-- The means of any aggregate in `aggregate`'s output are the spec's
present-value means of the records sharing the aggregate's key. -/
theorem aggregate_mean_char (recs : List DailyRec) (agg : MonthlyAgg)
    (h : agg ∈ aggregate recs) :
    agg.meanTemp =
      specMean ((recs.filter (fun r => keyOf r = agg.key)).map (fun r => r.temp))
    ∧ agg.meanPrecip =
      specMean ((recs.filter (fun r => keyOf r = agg.key)).map (fun r => r.precip))
    ∧ agg.meanWind =
      specMean ((recs.filter (fun r => keyOf r = agg.key)).map (fun r => r.wind)) := by
  obtain ⟨e, rfl, _, hacc⟩ := mem_aggregate_acc recs agg h
  have hkey : (finalize e).key = e.1 := rfl
  rw [hkey]
  refine ⟨?_, ?_, ?_⟩
  · show meanOf e.2.t = _
    rw [hacc, foldl_bump_t, foldl_addVal]
    simp only [meanOf, specMean, MAcc.init, SC.zero, zero_add]
    by_cases hz :
        (((recs.filter (fun r => keyOf r = e.1)).map (fun r => r.temp)).filterMap numOf).length = 0
    · rw [if_neg (not_not_intro hz), if_pos hz]
    · rw [if_pos hz, if_neg hz]
  · show meanOf e.2.p = _
    rw [hacc, foldl_bump_p, foldl_addVal]
    simp only [meanOf, specMean, MAcc.init, SC.zero, zero_add]
    by_cases hz :
        (((recs.filter (fun r => keyOf r = e.1)).map (fun r => r.precip)).filterMap numOf).length = 0
    · rw [if_neg (not_not_intro hz), if_pos hz]
    · rw [if_pos hz, if_neg hz]
  · show meanOf e.2.w = _
    rw [hacc, foldl_bump_w, foldl_addVal]
    simp only [meanOf, specMean, MAcc.init, SC.zero, zero_add]
    by_cases hz :
        (((recs.filter (fun r => keyOf r = e.1)).map (fun r => r.wind)).filterMap numOf).length = 0
    · rw [if_neg (not_not_intro hz), if_pos hz]
    · rw [if_pos hz, if_neg hz]

theorem aggregate_length_eq (recs : List DailyRec) :
    (aggregate recs).length = (recs.map keyOf).dedup.length := by
  rw [aggregate, (List.perm_insertionSort aggLE _).length_eq, List.length_map,
    ← List.length_map (monthlyGroups recs) Prod.fst]
  have hnd1 : ((monthlyGroups recs).map Prod.fst).Nodup :=
    keys_nodup_foldl recs [] (by simp)
  have hnd2 : ((recs.map keyOf).dedup).Nodup := List.nodup_dedup _
  have hmem : ∀ k, k ∈ (monthlyGroups recs).map Prod.fst ↔ k ∈ (recs.map keyOf).dedup := by
    intro k
    rw [List.mem_dedup, monthlyGroups, mem_keys_foldl]
    simp
  exact (List.perm_of_nodup_nodup_toFinset_eq hnd1 hnd2 (List.toFinset.ext hmem)).length_eq

theorem keyLE_ne_lt {a b : MonthKey} (hle : keyLE a b) (hne : a ≠ b) : keyLT a b := by
  obtain ⟨a1, a2⟩ := a
  obtain ⟨b1, b2⟩ := b
  simp only [keyLE, keyLT] at *
  simp only [ne_eq, Prod.mk.injEq, not_and] at hne
  rcases hle with h | ⟨h1, h2⟩
  · exact Or.inl h
  · subst h1
    exact Or.inr ⟨rfl, lt_of_le_of_ne h2 (fun h => hne rfl h)⟩

theorem aggregate_keys_nodup (recs : List DailyRec) :
    ((aggregate recs).map (fun a => a.key)).Nodup := by
  have hperm : List.Perm (aggregate recs) ((monthlyGroups recs).map finalize) :=
    List.perm_insertionSort _ _
  have hmapeq : ((monthlyGroups recs).map finalize).map (fun a => a.key) =
      (monthlyGroups recs).map Prod.fst := by
    rw [List.map_map]
    rfl
  have hnd : (((monthlyGroups recs).map finalize).map (fun a => a.key)).Nodup := by
    rw [hmapeq]
    exact keys_nodup_foldl recs [] (by simp)
  exact ((hperm.map (fun a => a.key)).nodup_iff).mpr hnd

theorem aggregate_strict_sorted (recs : List DailyRec) :
    List.Pairwise (fun a b : MonthlyAgg => keyLT a.key b.key) (aggregate recs) := by
  have hs : List.Pairwise aggLE (aggregate recs) := List.sorted_insertionSort aggLE _
  have hp2 : List.Pairwise (fun a b : MonthlyAgg => a.key ≠ b.key) (aggregate recs) :=
    List.pairwise_map.mp (aggregate_keys_nodup recs)
  exact (hs.and hp2).imp (fun hab => keyLE_ne_lt hab.1 hab.2)

/-- The temperature value the `T2M` branch of `applyParam` writes. -/
def t2mVal (data : List (String × ParamSeries)) (i : Nat) : JVal :=
  match lookupParam data "T2M" with
  | some ps =>
    match ps.values.get? i with
    | some v => .num v
    | none => .null
  | none => .null

/-- The precipitation value the `PRECTOT` branch writes. -/
def prectotVal (data : List (String × ParamSeries)) (i : Nat) : JVal :=
  match lookupParam data "PRECTOT" with
  | some ps =>
    match ps.values.get? i with
    | some v => .num v
    | none => .null
  | none => .null

/-- The wind value the `WS2M` branch writes (m/s converted to km/h). -/
def ws2mVal (data : List (String × ParamSeries)) (i : Nat) : JVal :=
  match lookupParam data "WS2M" with
  | some ps =>
    match ps.values.get? i with
    | some v => .num (v * (36 / 10))
    | none => .null
  | none => .null

theorem applyParam_date (data : List (String × ParamSeries)) (i : Nat)
    (rec : DailyRec) (p : String) :
    (applyParam data i rec p).date = rec.date := by
  unfold applyParam
  repeat' split
  all_goals rfl

theorem applyParam_temp_ne (data : List (String × ParamSeries)) (i : Nat)
    (rec : DailyRec) (p : String) (hp : p ≠ "T2M") :
    (applyParam data i rec p).temp = rec.temp := by
  unfold applyParam
  repeat' split
  all_goals first
    | rfl
    | (exact absurd (by assumption) hp)
    | (exact absurd rfl (by assumption))

theorem applyParam_temp_eq (data : List (String × ParamSeries)) (i : Nat)
    (rec : DailyRec) :
    (applyParam data i rec "T2M").temp = t2mVal data i := by
  unfold applyParam t2mVal
  repeat' split
  all_goals first
    | rfl
    | (exact absurd (by assumption) (by decide))
    | (exact absurd rfl (by assumption))

theorem applyParam_precip_ne (data : List (String × ParamSeries)) (i : Nat)
    (rec : DailyRec) (p : String) (hp : p ≠ "PRECTOT") :
    (applyParam data i rec p).precip = rec.precip := by
  unfold applyParam
  repeat' split
  all_goals first
    | rfl
    | (exact absurd (by assumption) hp)
    | (exact absurd rfl (by assumption))

theorem applyParam_precip_eq (data : List (String × ParamSeries)) (i : Nat)
    (rec : DailyRec) :
    (applyParam data i rec "PRECTOT").precip = prectotVal data i := by
  unfold applyParam prectotVal
  repeat' split
  all_goals first
    | rfl
    | (exact absurd (by assumption) (by decide))
    | (exact absurd rfl (by assumption))

theorem applyParam_wind_ne (data : List (String × ParamSeries)) (i : Nat)
    (rec : DailyRec) (p : String) (hp : p ≠ "WS2M") :
    (applyParam data i rec p).wind = rec.wind := by
  unfold applyParam
  repeat' split
  all_goals first
    | rfl
    | (exact absurd (by assumption) hp)
    | (exact absurd rfl (by assumption))

theorem applyParam_wind_eq (data : List (String × ParamSeries)) (i : Nat)
    (rec : DailyRec) :
    (applyParam data i rec "WS2M").wind = ws2mVal data i := by
  unfold applyParam ws2mVal
  repeat' split
  all_goals first
    | rfl
    | (exact absurd (by assumption) (by decide))
    | (exact absurd rfl (by assumption))

theorem foldl_applyParam_date (data : List (String × ParamSeries)) (i : Nat)
    (params : List String) (rec : DailyRec) :
    (params.foldl (applyParam data i) rec).date = rec.date := by
  induction params generalizing rec with
  | nil => rfl
  | cons p ps ih => rw [List.foldl_cons, ih, applyParam_date]

theorem foldl_applyParam_temp (data : List (String × ParamSeries)) (i : Nat)
    (params : List String) (rec : DailyRec) :
    (params.foldl (applyParam data i) rec).temp =
      if "T2M" ∈ params then t2mVal data i else rec.temp := by
  induction params generalizing rec with
  | nil => simp
  | cons p ps ih =>
    rw [List.foldl_cons, ih]
    by_cases hp : p = "T2M"
    · subst hp
      by_cases hm : "T2M" ∈ ps <;> simp [hm, applyParam_temp_eq]
    · have hmem : ("T2M" ∈ p :: ps) ↔ ("T2M" ∈ ps) := by
        constructor
        · intro h
          rcases List.mem_cons.mp h with heq | hm
          · exact absurd heq.symm hp
          · exact hm
        · exact fun h => List.mem_cons_of_mem _ h
      rw [applyParam_temp_ne data i rec p hp]
      by_cases hm : "T2M" ∈ ps <;> simp [hm, hmem]

theorem foldl_applyParam_precip (data : List (String × ParamSeries)) (i : Nat)
    (params : List String) (rec : DailyRec) :
    (params.foldl (applyParam data i) rec).precip =
      if "PRECTOT" ∈ params then prectotVal data i else rec.precip := by
  induction params generalizing rec with
  | nil => simp
  | cons p ps ih =>
    rw [List.foldl_cons, ih]
    by_cases hp : p = "PRECTOT"
    · subst hp
      by_cases hm : "PRECTOT" ∈ ps <;> simp [hm, applyParam_precip_eq]
    · have hmem : ("PRECTOT" ∈ p :: ps) ↔ ("PRECTOT" ∈ ps) := by
        constructor
        · intro h
          rcases List.mem_cons.mp h with heq | hm
          · exact absurd heq.symm hp
          · exact hm
        · exact fun h => List.mem_cons_of_mem _ h
      rw [applyParam_precip_ne data i rec p hp]
      by_cases hm : "PRECTOT" ∈ ps <;> simp [hm, hmem]

theorem foldl_applyParam_wind (data : List (String × ParamSeries)) (i : Nat)
    (params : List String) (rec : DailyRec) :
    (params.foldl (applyParam data i) rec).wind =
      if "WS2M" ∈ params then ws2mVal data i else rec.wind := by
  induction params generalizing rec with
  | nil => simp
  | cons p ps ih =>
    rw [List.foldl_cons, ih]
    by_cases hp : p = "WS2M"
    · subst hp
      by_cases hm : "WS2M" ∈ ps <;> simp [hm, applyParam_wind_eq]
    · have hmem : ("WS2M" ∈ p :: ps) ↔ ("WS2M" ∈ ps) := by
        constructor
        · intro h
          rcases List.mem_cons.mp h with heq | hm
          · exact absurd heq.symm hp
          · exact hm
        · exact fun h => List.mem_cons_of_mem _ h
      rw [applyParam_wind_ne data i rec p hp]
      by_cases hm : "WS2M" ∈ ps <;> simp [hm, hmem]

theorem mem_dedupFirstAux (seen l : List Nat) (x : Nat) :
    x ∈ dedupFirstAux seen l ↔ x ∈ l ∧ x ∉ seen := by
  induction l generalizing seen with
  | nil => simp [dedupFirstAux]
  | cons a rest ih =>
    by_cases ha : a ∈ seen
    · simp only [dedupFirstAux, if_pos ha, ih, List.mem_cons]
      constructor
      · rintro ⟨h1, h2⟩
        exact ⟨Or.inr h1, h2⟩
      · rintro ⟨h1 | h1, h2⟩
        · exact absurd (h1 ▸ ha) h2
        · exact ⟨h1, h2⟩
    · simp only [dedupFirstAux, if_neg ha, List.mem_cons, ih]
      by_cases hx : x = a <;> simp [hx, ha] <;> tauto

theorem mem_dedupFirst (l : List Nat) (x : Nat) : x ∈ dedupFirst l ↔ x ∈ l := by
  simp [dedupFirst, mem_dedupFirstAux]

theorem nodup_dedupFirstAux (l : List Nat) : ∀ seen, (dedupFirstAux seen l).Nodup := by
  induction l with
  | nil => intro seen; simp [dedupFirstAux]
  | cons a rest ih =>
    intro seen
    by_cases ha : a ∈ seen
    · simpa [dedupFirstAux, ha] using ih seen
    · simp only [dedupFirstAux, if_neg ha]
      refine List.nodup_cons.mpr ⟨?_, ih _⟩
      intro hmem
      rcases (mem_dedupFirstAux _ _ _).mp hmem with ⟨_, hns⟩
      exact hns (List.mem_cons_self a seen)

theorem nodup_dedupFirst (l : List Nat) : (dedupFirst l).Nodup :=
  nodup_dedupFirstAux l []

theorem downsample_eq_spec (data : List (Option ℚ)) :
    downsampleIndices data = specRetainedSet data := by
  have hD : downsampleIndices data =
      List.insertionSort (· ≤ ·)
        (dedupFirst [0, data.length - 1, maxIdxOf data, minIdxOf data] ++
          (List.range data.length).filter
            (fun i => i % (max 1 (data.length / 50)) = 0 ∧
              i ∉ dedupFirst [0, data.length - 1, maxIdxOf data, minIdxOf data])) := rfl
  have hS : specRetainedSet data =
      List.insertionSort (· ≤ ·)
        (dedupFirst ([0, data.length - 1, maxIdxOf data, minIdxOf data] ++
          (List.range data.length).filter
            (fun i => i % (max 1 (data.length / 50)) = 0))) := rfl
  rw [hD, hS]
  have hA : (dedupFirst [0, data.length - 1, maxIdxOf data, minIdxOf data] ++
      (List.range data.length).filter
        (fun i => i % (max 1 (data.length / 50)) = 0 ∧
          i ∉ dedupFirst [0, data.length - 1, maxIdxOf data, minIdxOf data])).Nodup := by
    refine List.Nodup.append (nodup_dedupFirst _)
      ((List.nodup_range _).filter _) ?_
    intro x hx1 hx2
    rcases List.mem_filter.mp hx2 with ⟨_, hpred⟩
    rcases of_decide_eq_true hpred with ⟨_, hni⟩
    exact hni hx1
  have hB : (dedupFirst ([0, data.length - 1, maxIdxOf data, minIdxOf data] ++
      (List.range data.length).filter
        (fun i => i % (max 1 (data.length / 50)) = 0))).Nodup := nodup_dedupFirst _
  have hmem : ∀ x,
      x ∈ dedupFirst [0, data.length - 1, maxIdxOf data, minIdxOf data] ++
        (List.range data.length).filter
          (fun i => i % (max 1 (data.length / 50)) = 0 ∧
            i ∉ dedupFirst [0, data.length - 1, maxIdxOf data, minIdxOf data]) ↔
      x ∈ dedupFirst ([0, data.length - 1, maxIdxOf data, minIdxOf data] ++
        (List.range data.length).filter
          (fun i => i % (max 1 (data.length / 50)) = 0)) := by
    intro x
    simp only [List.mem_append, mem_dedupFirst, List.mem_filter,
      decide_eq_true_eq]
    by_cases hI : x ∈ [0, data.length - 1, maxIdxOf data, minIdxOf data] <;>
      simp [hI]
  have hAB := List.perm_of_nodup_nodup_toFinset_eq hA hB (List.toFinset.ext hmem)
  exact List.eq_of_perm_of_sorted
    ((List.perm_insertionSort _ _).trans
      (hAB.trans (List.perm_insertionSort _ _).symm))
    (List.sorted_insertionSort _ _) (List.sorted_insertionSort _ _)

/-! ## Claim theorems -/

set_option maxRecDepth 16000

/-- C1 (counterexample): on the spec's §8 two-day January-2024 input the
month's stored extreme count is `4`, while only `2` days trigger at
least one looser-threshold condition — so the count is not the number
of extreme days and is not `2`. -/
theorem claim1_counterexample :
    getCount (extremeByMonth demoJan) (2024, 1) = 4 ∧
    (demoJan.filter (fun r => keyOf r = ((2024, 1) : MonthKey)
      ∧ 0 < dayExtremeCount r)).length = 2 ∧
    (4 : Nat) ≠ 2 := by decide

/-- C1 (amended): a month's extreme count is the sum over that month's
days of the number of triggered looser-threshold conditions — a day
with several triggered conditions contributes once per condition, not
once per day; on the §8 two-day input the 2024-01 count is `4`. -/
theorem claim1_monthly_extreme_count :
    (∀ (recs : List DailyRec) (k : MonthKey),
      getCount (extremeByMonth recs) k =
        ((recs.filter (fun r => keyOf r = k)).map dayExtremeCount).sum)
    ∧ getCount (extremeByMonth demoJan) (2024, 1) = 4 := by
  constructor
  · intro recs k
    have h := getCount_foldl recs [] k
    simpa [extremeByMonth, getCount_nil] using h
  · decide

/-- C1 (witness). -/
theorem claim1_witness :
    getCount (extremeByMonth demoJan) (2024, 1) =
      ((demoJan.filter (fun r => keyOf r = ((2024, 1) : MonthKey))).map
        dayExtremeCount).sum :=
  claim1_monthly_extreme_count.1 demoJan (2024, 1)

/-- C2 (counterexample): a record whose fields are all explicit `null`
still counts as one monthly extreme condition (the absent temperature
satisfies the `temp < 5` comparison after JS coercion of `null` to `0`),
and the temperature chart series renders the absent value as the number
`0` — refuting "an absent value never satisfies a threshold comparison
and is never rendered as the number 0". -/
theorem claim2_counterexample :
    dayExtremeCount nullRec = 1 ∧ tempsSeries [nullRec] = [0] := by decide

/-- C2 (amended): absence is propagated through the statistics
summarizer (absent entries never change a summary) and through monthly
aggregation (a month with no present temperatures has an absent mean);
absent precipitation and wind never satisfy their looser thresholds;
but a `null` temperature does satisfy the monthly `temp < 5` condition,
and the daily chart series coerce absent values to `0`. -/
theorem claim2_absence_propagation :
    (∀ (v : JVal) (values : List JVal), numOf v = none →
      summarize (v :: values) = summarize values)
    ∧ (∀ (recs : List DailyRec) (agg : MonthlyAgg), agg ∈ aggregate recs →
        ((recs.filter (fun r => keyOf r = agg.key)).map
          (fun r => r.temp)).filterMap numOf = [] →
        agg.meanTemp = none)
    ∧ (∀ day : DailyRec, day.precip = .null ∨ day.precip = .undef →
        jsDefGT day.precip 10 = false)
    ∧ (∀ day : DailyRec, day.wind = .null ∨ day.wind = .undef →
        jsDefGT day.wind 20 = false)
    ∧ (∀ (d : CalDate) (p w : JVal), dayExtremeCount ⟨d, .null, p, w⟩ =
        (if jsDefGT p 10 then 1 else 0) + 1 + (if jsDefGT w 20 then 1 else 0))
    ∧ (∀ (d : DailyRec) (rest : List DailyRec), d.temp = .null →
        tempsSeries (d :: rest) = 0 :: tempsSeries rest) := by
  refine ⟨?_, ?_, ?_, ?_, ?_, ?_⟩
  · intro v values h
    simp [summarize, List.filterMap_cons, h]
  · intro recs agg hmem hz
    have hc := (aggregate_mean_char recs agg hmem).1
    rw [hc, specMean, hz]
    simp
  · intro day h
    rcases h with h | h <;> rw [h] <;> decide
  · intro day h
    rcases h with h | h <;> rw [h] <;> decide
  · intro d p w
    simp [dayExtremeCount, jsDefGT, jsDefLT]
  · intro d rest h
    simp [tempsSeries, jsNullish, h]

/-- C2 (witness). -/
theorem claim2_witness :
    numOf JVal.null = none ∧
    summarize (JVal.null :: [JVal.num 5]) = summarize [JVal.num 5] :=
  ⟨rfl, claim2_absence_propagation.1 .null [.num 5] rfl⟩

/-- C5: the summarizer is total: on an empty or fully-absent input it
returns absent mean/min/max, total `0`, present count `0`; on
`[5, absent, 15]` it returns mean `10`, min `5`, max `15`, total `20`,
present count `2`. -/
theorem claim5_summarize_total :
    (∀ values : List JVal, (∀ v ∈ values, numOf v = none) →
      summarize values = ⟨none, none, none, 0, 0⟩)
    ∧ summarize [] = ⟨none, none, none, 0, 0⟩
    ∧ summarize [.num 5, .null, .num 15] = ⟨some 10, some 5, some 15, 20, 2⟩ := by
  refine ⟨?_, by decide, ?_⟩
  · intro values h
    have hfm : values.filterMap numOf = [] := List.filterMap_eq_nil.mpr h
    simp [summarize, hfm]
  · norm_num [summarize, numOf, List.filterMap_cons, min_def, max_def]

/-- C5 (witness). -/
theorem claim5_witness :
    (∀ v ∈ [JVal.null, JVal.undef], numOf v = none) ∧
    summarize [JVal.null, JVal.undef] = ⟨none, none, none, 0, 0⟩ :=
  ⟨by decide, claim5_summarize_total.1 [.null, .undef] (by decide)⟩

/-- C8: a retained point at down-sampled position `i` of `m` total
points maps to `i / (m - 1) * (width - 24) + 12`, and with `m = 1`
(total-points `0`) the single point maps to the left margin `12`. -/
theorem claim8_position_mapping (i m : Nat) (width : ℚ) :
    (2 ≤ m → chartX i (m - 1) width = (i : ℚ) / ((m : ℚ) - 1) * (width - 24) + 12)
    ∧ chartX 0 0 width = 12 := by
  constructor
  · intro hm
    unfold chartX
    rw [if_neg (by omega : ¬ (m - 1 = 0)), Nat.cast_sub (by omega : 1 ≤ m)]
    norm_num
  · unfold chartX
    norm_num

/-- C8 (witness). -/
theorem claim8_witness :
    (2 ≤ 4 ∧ chartX 3 (4 - 1) 300 = (3 : ℚ) / ((4 : ℚ) - 1) * (300 - 24) + 12)
    ∧ chartX 0 0 300 = 12 :=
  ⟨⟨by norm_num, (claim8_position_mapping 3 4 300).1 (by norm_num)⟩,
   (claim8_position_mapping 0 0 300).2⟩

/-- C10: any payload whose `T2M` entry is missing or has an empty
`dates` array yields `hasData = false`, empty daily and monthly
sequences and an error message — precipitation or wind data in the
payload is discarded. -/
theorem claim10_t2m_gate (pl : Payload)
    (h : lookupParam pl.data "T2M" = none ∨
      ∃ ps, lookupParam pl.data "T2M" = some ps ∧ ps.dates = []) :
    processApiData pl =
      ⟨[], [], false,
       some "No temperature data available for the selected date range."⟩ := by
  unfold processApiData
  rcases h with h | ⟨ps, h, hd⟩
  · rw [h]
  · rw [h]
    simp [hd]

/-- C10 (witness): a payload carrying only wind data. -/
theorem claim10_witness :
    lookupParam plWindOnly.data "T2M" = none ∧
    processApiData plWindOnly =
      ⟨[], [], false,
       some "No temperature data available for the selected date range."⟩ :=
  ⟨by decide, claim10_t2m_gate plWindOnly (Or.inl (by decide))⟩

/-- C3: every output aggregate's mean, for each of temperature,
precipitation and wind speed independently, is the sum of the present
values of its month's records divided by their count, and is absent
(never zero) when no value is present. -/
theorem claim3_monthly_means (recs : List DailyRec) (agg : MonthlyAgg)
    (h : agg ∈ aggregate recs) :
    (agg.meanTemp =
      specMean ((recs.filter (fun r => keyOf r = agg.key)).map (fun r => r.temp))
     ∧ agg.meanPrecip =
      specMean ((recs.filter (fun r => keyOf r = agg.key)).map (fun r => r.precip))
     ∧ agg.meanWind =
      specMean ((recs.filter (fun r => keyOf r = agg.key)).map (fun r => r.wind)))
    ∧ (((recs.filter (fun r => keyOf r = agg.key)).map
        (fun r => r.temp)).filterMap numOf = [] → agg.meanTemp = none) := by
  have hc := aggregate_mean_char recs agg h
  refine ⟨hc, fun hz => ?_⟩
  rw [hc.1, specMean, hz]
  simp

/-- C3 (witness). -/
theorem claim3_witness :
    (⟨(2024, 1), none, none, none, 0⟩ : MonthlyAgg) ∈ aggregate demoNull ∧
    (⟨(2024, 1), none, none, none, 0⟩ : MonthlyAgg).meanTemp =
      specMean ((demoNull.filter (fun r => keyOf r =
        (⟨(2024, 1), none, none, none, 0⟩ : MonthlyAgg).key)).map
        (fun r => r.temp)) :=
  ⟨by decide, (claim3_monthly_means demoNull _ (by decide)).1.1⟩

/-- C6: on any non-empty input `aggregate`'s output length is the
number of distinct `(year, month)` keys and the output is strictly
ascending in `(year, month)`; the empty input yields the empty output
rather than an error. -/
theorem claim6_aggregate_shape (recs : List DailyRec) :
    (recs ≠ [] →
      (aggregate recs).length = (recs.map keyOf).dedup.length ∧
      List.Pairwise (fun a b : MonthlyAgg => keyLT a.key b.key) (aggregate recs))
    ∧ aggregate [] = [] :=
  ⟨fun _ => ⟨aggregate_length_eq recs, aggregate_strict_sorted recs⟩, rfl⟩

/-- C6 (witness). -/
theorem claim6_witness :
    demoJan ≠ [] ∧
    (aggregate demoJan).length = (demoJan.map keyOf).dedup.length :=
  ⟨by decide, ((claim6_aggregate_shape demoJan).1 (by decide)).1⟩

/-- C7 (counterexample): a series of length exactly 100 is not below
the documented threshold, so the claim requires the union-formula
retained set, yet the chart keeps all 100 points unmodified (the code
only downsamples at length strictly greater than 100) and the claimed
formula yields a different set. -/
theorem claim7_counterexample :
    data100.length = 100 ∧
    lineChartIndices data100 true = some (List.range 100) ∧
    specRetainedSet data100 ≠ List.range 100 :=
  ⟨by decide, by decide, by decide⟩

/-- Membership in the spec's retained set. -/
theorem mem_specRetainedSet (data : List (Option ℚ)) (x : Nat) :
    x ∈ specRetainedSet data ↔
      x ∈ [0, data.length - 1, maxIdxOf data, minIdxOf data] ∨
      (x ∈ List.range data.length ∧ x % (max 1 (data.length / 50)) = 0) := by
  have hS : specRetainedSet data =
      List.insertionSort (· ≤ ·)
        (dedupFirst ([0, data.length - 1, maxIdxOf data, minIdxOf data] ++
          (List.range data.length).filter
            (fun i => i % (max 1 (data.length / 50)) = 0))) := rfl
  rw [hS, List.mem_insertionSort, mem_dedupFirst, List.mem_append,
    List.mem_filter]
  simp [decide_eq_true_eq]

/-- C7 (amended): a series of length at most 100 is returned unmodified
(all indices retained); only above 100 does the compact chart retain
exactly the union of index 0, the last index, the global-max and
global-min indices, and every `max(1, ⌊length/50⌋)`-th index,
deduplicated and sorted ascending; a 200-element series always retains
indices 0 and 199. -/
theorem claim7_downsample (data : List (Option ℚ)) :
    (validOf data ≠ [] → data.length ≤ 100 →
      lineChartIndices data true = some (List.range data.length))
    ∧ (validOf data ≠ [] → 100 < data.length →
      lineChartIndices data true = some (specRetainedSet data))
    ∧ (validOf data ≠ [] → data.length = 200 →
      ∃ l, lineChartIndices data true = some l ∧ 0 ∈ l ∧ 199 ∈ l)
    ∧ (validOf data ≠ [] → data.length = 50 →
      lineChartIndices data true = some (List.range 50)) := by
  have hne : validOf data ≠ [] → ¬ data.length = 0 := by
    intro hv h0
    apply hv
    rw [List.length_eq_zero.mp h0]
    rfl
  have hvlen : validOf data ≠ [] → ¬ (validOf data).length = 0 :=
    fun hv h => hv (List.length_eq_zero.mp h)
  have hle : ∀ (hv : validOf data ≠ []), data.length ≤ 100 →
      lineChartIndices data true = some (List.range data.length) := by
    intro hv h100
    unfold lineChartIndices
    rw [if_neg (hne hv), if_neg (hvlen hv),
      if_neg (fun hcon => absurd hcon.2 (by omega))]
  have hgt : ∀ (hv : validOf data ≠ []), 100 < data.length →
      lineChartIndices data true = some (specRetainedSet data) := by
    intro hv h100
    unfold lineChartIndices
    rw [if_neg (hne hv), if_neg (hvlen hv), if_pos ⟨rfl, h100⟩,
      downsample_eq_spec]
  refine ⟨hle, hgt, ?_, ?_⟩
  · intro hv h200
    refine ⟨specRetainedSet data, hgt hv (by omega), ?_, ?_⟩
    · rw [mem_specRetainedSet]
      exact Or.inl (by simp)
    · rw [mem_specRetainedSet]
      refine Or.inl ?_
      rw [h200]
      simp
  · intro hv h50
    rw [hle hv (by omega), h50]

/-- C7 (witness). -/
theorem claim7_witness :
    validOf data100 ≠ [] ∧ data100.length ≤ 100 ∧
    lineChartIndices data100 true = some (List.range data100.length) :=
  ⟨by decide, by decide, (claim7_downsample data100).1 (by decide) (by decide)⟩

/-- C9 (counterexample): a payload advertising `PRECTOTCORR` with a
value still yields an `undefined` (absent) precipitation field — the
code recognizes only `PRECTOT`, so `PRECTOTCORR` is not mapped to
precipitation. -/
theorem claim9_counterexample :
    "PRECTOTCORR" ∈ plCorr.available ∧
    lookupParam plCorr.data "PRECTOTCORR" = some ⟨[⟨2024, 1, 1⟩], [7]⟩ ∧
    (processApiData plCorr).daily.map (fun r => r.precip) = [JVal.undef] := by
  decide

/-- C9 (amended): the recognized PARAM_CODEs are exactly `T2M`
(temperature), `PRECTOT` (precipitation) and `WS2M` (wind, converted
m/s → km/h by multiplying by 3.6); any other code in `available` —
including `PRECTOTCORR` — leaves its field untouched; a code absent
from `available` leaves the field `undefined`, and a recognized code
whose `values` array is shorter than the index yields an explicit
`null`, never an error. -/
theorem claim9_param_recognition (pl : Payload) (date : CalDate) (i : Nat) :
    ((mkDailyRec pl date i).date = date
     ∧ (mkDailyRec pl date i).temp =
         (if "T2M" ∈ pl.available then t2mVal pl.data i else .undef)
     ∧ (mkDailyRec pl date i).precip =
         (if "PRECTOT" ∈ pl.available then prectotVal pl.data i else .undef)
     ∧ (mkDailyRec pl date i).wind =
         (if "WS2M" ∈ pl.available then ws2mVal pl.data i else .undef))
    ∧ (∀ ps, lookupParam pl.data "T2M" = some ps → ps.values.length ≤ i →
        t2mVal pl.data i = .null)
    ∧ (∀ ps v, lookupParam pl.data "WS2M" = some ps →
        ps.values.get? i = some v →
        ws2mVal pl.data i = .num (v * (36 / 10))) := by
  refine ⟨⟨foldl_applyParam_date _ _ _ _, foldl_applyParam_temp _ _ _ _,
    foldl_applyParam_precip _ _ _ _, foldl_applyParam_wind _ _ _ _⟩, ?_, ?_⟩
  · intro ps hl hlen
    unfold t2mVal
    rw [hl]
    show (match ps.values.get? i with
      | some v => JVal.num v
      | none => JVal.null) = JVal.null
    rw [List.get?_eq_none.mpr hlen]
  · intro ps v hl hv
    unfold ws2mVal
    rw [hl]
    show (match ps.values.get? i with
      | some v => JVal.num (v * (36 / 10))
      | none => JVal.null) = JVal.num (v * (36 / 10))
    rw [hv]

/-- C9 (witness). -/
theorem claim9_witness :
    (mkDailyRec plCorr ⟨2024, 1, 1⟩ 0).precip =
      (if "PRECTOT" ∈ plCorr.available then prectotVal plCorr.data 0
       else .undef) ∧
    t2mVal plCorr.data 5 = .null :=
  ⟨(claim9_param_recognition plCorr ⟨2024, 1, 1⟩ 0).1.2.2.1,
   (claim9_param_recognition plCorr ⟨2024, 1, 1⟩ 5).2.1
     ⟨[⟨2024, 1, 1⟩], [20]⟩ (by decide) (by decide)⟩

theorem detectDay_kinds (loc : String) (day : DailyRec) :
    (detectDay loc day).map ExtremeEvent.kind =
      (if jsDefGT day.temp 35 then [EKind.extremeHeat]
       else if jsDefLT day.temp 0 then [EKind.extremeCold] else [])
      ++ (if jsDefGT day.precip 25 then [EKind.heavyRain] else [])
      ++ (if jsDefGT day.wind 20 then [EKind.strongWind] else []) := by
  unfold detectDay
  split_ifs <;> simp

theorem jsDefGT_iff (v : JVal) (c : ℚ) (hc : 0 ≤ c) :
    jsDefGT v c = true ↔ ∃ q, v = .num q ∧ c < q := by
  cases v with
  | undef => simp [jsDefGT]
  | null =>
    simp only [jsDefGT, decide_eq_true_eq, gt_iff_lt]
    constructor
    · intro h
      exact absurd h (not_lt.mpr hc)
    · rintro ⟨q, h, _⟩
      cases h
  | num q =>
    simp only [jsDefGT, decide_eq_true_eq, gt_iff_lt]
    constructor
    · intro h
      exact ⟨q, rfl, h⟩
    · rintro ⟨q', hq, h⟩
      cases hq
      exact h

theorem jsDefLT_iff (v : JVal) (c : ℚ) (hc : c ≤ 0) :
    jsDefLT v c = true ↔ ∃ q, v = .num q ∧ q < c := by
  cases v with
  | undef => simp [jsDefLT]
  | null =>
    simp only [jsDefLT, decide_eq_true_eq]
    constructor
    · intro h
      exact absurd h (not_lt.mpr hc)
    · rintro ⟨q, h, _⟩
      cases h
  | num q =>
    simp only [jsDefLT, decide_eq_true_eq]
    constructor
    · intro h
      exact ⟨q, rfl, h⟩
    · rintro ⟨q', hq, h⟩
      cases hq
      exact h

theorem exists_kind_iff_mem_map (loc : String) (day : DailyRec) (k : EKind) :
    (∃ e ∈ detectDay loc day, e.kind = k) ↔
      k ∈ (detectDay loc day).map ExtremeEvent.kind := by
  rw [List.mem_map]

theorem detectDay_heat_iff (loc : String) (day : DailyRec) :
    (∃ e ∈ detectDay loc day, e.kind = EKind.extremeHeat) ↔
      ∃ q, day.temp = .num q ∧ 35 < q := by
  rw [exists_kind_iff_mem_map, detectDay_kinds,
    ← jsDefGT_iff day.temp 35 (by norm_num)]
  split_ifs <;> simp_all

theorem detectDay_rain_iff (loc : String) (day : DailyRec) :
    (∃ e ∈ detectDay loc day, e.kind = EKind.heavyRain) ↔
      ∃ q, day.precip = .num q ∧ 25 < q := by
  rw [exists_kind_iff_mem_map, detectDay_kinds,
    ← jsDefGT_iff day.precip 25 (by norm_num)]
  split_ifs <;> simp_all

theorem detectDay_wind_iff (loc : String) (day : DailyRec) :
    (∃ e ∈ detectDay loc day, e.kind = EKind.strongWind) ↔
      ∃ q, day.wind = .num q ∧ 20 < q := by
  rw [exists_kind_iff_mem_map, detectDay_kinds,
    ← jsDefGT_iff day.wind 20 (by norm_num)]
  split_ifs <;> simp_all

theorem detectDay_cold_iff (loc : String) (day : DailyRec) :
    (∃ e ∈ detectDay loc day, e.kind = EKind.extremeCold) ↔
      ∃ q, day.temp = .num q ∧ q < 0 := by
  rw [exists_kind_iff_mem_map, detectDay_kinds]
  constructor
  · intro hmem
    by_cases h1 : jsDefGT day.temp 35 = true
    · rw [if_pos h1] at hmem
      exfalso
      revert hmem
      split_ifs <;> simp
    · rw [if_neg h1] at hmem
      by_cases h2 : jsDefLT day.temp 0 = true
      · exact (jsDefLT_iff day.temp 0 le_rfl).mp h2
      · rw [if_neg h2] at hmem
        exfalso
        revert hmem
        split_ifs <;> simp
  · rintro ⟨q, hq, hlt⟩
    have h2 : jsDefLT day.temp 0 = true :=
      (jsDefLT_iff day.temp 0 le_rfl).mpr ⟨q, hq, hlt⟩
    have h1 : ¬ jsDefGT day.temp 35 = true := by
      intro h
      rcases (jsDefGT_iff day.temp 35 (by norm_num)).mp h with ⟨q', hq', hgt⟩
      rw [hq] at hq'
      cases hq'
      linarith
    rw [if_neg h1, if_pos h2]
    simp

theorem detectDay_fields (loc : String) (day : DailyRec) :
    ∀ e ∈ detectDay loc day, e.date = day.date ∧ e.location = loc := by
  intro e he
  unfold detectDay at he
  rcases List.mem_append.mp he with h | h
  · rcases List.mem_append.mp h with h2 | h2 <;>
      (split_ifs at h2 <;> simp at h2 <;> subst h2 <;> exact ⟨rfl, rfl⟩)
  · split_ifs at h <;> simp at h <;> subst h <;> exact ⟨rfl, rfl⟩

/-- C4: the detector classifies each record independently against the
fixed thresholds (emitting ExtremeHeat for a present temperature above
35, ExtremeCold below 0, HeavyRain for precipitation above 25,
StrongWind for wind above 20, each dated and located at that record),
returns a permutation of the per-record rule events (no deduplication)
sorted descending by date, and the record
`temperature 36 / precipitation 30 / wind 25` yields exactly the three
events ExtremeHeat, HeavyRain, StrongWind. -/
theorem claim4_detector :
    (∀ (recs : List DailyRec) (loc : String),
      List.Sorted dateDesc (detect recs loc)
      ∧ List.Perm (detect recs loc) (recs.flatMap (detectDay loc)))
    ∧ (∀ (loc : String) (day : DailyRec),
        ((∃ e ∈ detectDay loc day, e.kind = EKind.extremeHeat) ↔
            ∃ q, day.temp = .num q ∧ 35 < q)
        ∧ ((∃ e ∈ detectDay loc day, e.kind = EKind.extremeCold) ↔
            ∃ q, day.temp = .num q ∧ q < 0)
        ∧ ((∃ e ∈ detectDay loc day, e.kind = EKind.heavyRain) ↔
            ∃ q, day.precip = .num q ∧ 25 < q)
        ∧ ((∃ e ∈ detectDay loc day, e.kind = EKind.strongWind) ↔
            ∃ q, day.wind = .num q ∧ 20 < q)
        ∧ (∀ e ∈ detectDay loc day, e.date = day.date ∧ e.location = loc))
    ∧ (∀ (loc : String) (d : CalDate),
        detect [⟨d, .num 36, .num 30, .num 25⟩] loc =
          [⟨.extremeHeat, loc, d, 36⟩, ⟨.heavyRain, loc, d, 30⟩,
           ⟨.strongWind, loc, d, 25⟩]) := by
  refine ⟨?_, ?_, ?_⟩
  · intro recs loc
    exact ⟨List.sorted_insertionSort dateDesc _, List.perm_insertionSort dateDesc _⟩
  · intro loc day
    exact ⟨detectDay_heat_iff loc day, detectDay_cold_iff loc day,
      detectDay_rain_iff loc day, detectDay_wind_iff loc day,
      detectDay_fields loc day⟩
  · intro loc d
    have h1 : detectDay loc ⟨d, .num 36, .num 30, .num 25⟩ =
        [⟨.extremeHeat, loc, d, 36⟩, ⟨.heavyRain, loc, d, 30⟩,
         ⟨.strongWind, loc, d, 25⟩] := by
      unfold detectDay
      norm_num [jsDefGT, jsDefLT, jsNullish]
    unfold detect
    rw [show ([⟨d, .num 36, .num 30, .num 25⟩] :
        List DailyRec).flatMap (detectDay loc) =
        detectDay loc ⟨d, .num 36, .num 30, .num 25⟩ ++ [] from rfl, h1]
    simp [List.insertionSort, List.orderedInsert, dateDesc, le_refl]

/-- C4 (witness). -/
theorem claim4_witness :
    List.Sorted dateDesc (detect demoJan "Loc")
    ∧ detect [⟨⟨2024, 1, 1⟩, .num 36, .num 30, .num 25⟩] "Loc" =
      [⟨.extremeHeat, "Loc", ⟨2024, 1, 1⟩, 36⟩,
       ⟨.heavyRain, "Loc", ⟨2024, 1, 1⟩, 30⟩,
       ⟨.strongWind, "Loc", ⟨2024, 1, 1⟩, 25⟩] :=
  ⟨(claim4_detector.1 demoJan "Loc").1, claim4_detector.2.2 "Loc" ⟨2024, 1, 1⟩⟩

end AstroKites
